import Mathlib

/-!
LibreCAD: the "spline through points" drawing action.

A shallow embedding of `librecad/src/actions/lc_actiondrawsplinepoints.cpp`.

The action object is a record of its member variables.  Every member function
becomes a function from the record to the new record together with the list of
calls it makes on its collaborators (dialog factory, container, document,
preview, graphic view), in program order.  A member function that can run into
undefined behaviour (a dereference of the null `spline` pointer, a `back()`
read of an empty sequence) has an `Outcome`: it either returns, or stops at the
fault without returning and without a further call.

Coordinates are only stored and moved around by this file, never computed
with, so a coordinate is a pair of integers.
-/

namespace LibreCAD

/-- A 2D coordinate (`RS_Vector`).  The action never does arithmetic on it. -/
structure RS_Vector where
  x : Int
  y : Int
deriving DecidableEq, Repr

/-- Modelled from the spec: the data block of the spline entity, declared in
`lc_splinepoints.h` which is not part of the sources at hand.  It holds the
closed flag, the cut flag and the ordered sequence of points; the constructor
call `LC_SplinePointsData(false, false)` leaves the sequence empty. -/
structure LC_SplinePointsData where
  closed : Bool
  cut : Bool
  splinePoints : List RS_Vector
deriving DecidableEq, Repr

/-- Modelled from the spec: the spline entity (`lc_splinepoints.h/.cpp`, not
part of the sources at hand).  It owns a copy of the data it is constructed
from; its point sequence is a simple ordered sequence of coordinates. -/
structure LC_SplinePoints where
  data : LC_SplinePointsData
deriving DecidableEq, Repr

namespace LC_SplinePoints

/-- Modelled from the spec: `LC_SplinePoints(container, data)` copies `data`. -/
def create (d : LC_SplinePointsData) : LC_SplinePoints := ⟨d⟩

/-- Modelled from the spec: `addPoint` appends to the ordered point sequence. -/
def addPoint (s : LC_SplinePoints) (v : RS_Vector) : LC_SplinePoints :=
  { s with data := { s.data with splinePoints := s.data.splinePoints ++ [v] } }

/-- Modelled from the spec: `removeLastPoint` drops the last point of the
ordered point sequence. -/
def removeLastPoint (s : LC_SplinePoints) : LC_SplinePoints :=
  { s with data := { s.data with splinePoints := s.data.splinePoints.dropLast } }

/-- Modelled from the spec: `setClosed` stores the closed flag of the entity. -/
def setClosed (s : LC_SplinePoints) (c : Bool) : LC_SplinePoints :=
  { s with data := { s.data with closed := c } }

/-- Modelled from the spec: `clone` yields an entity with the same data. -/
def clone (s : LC_SplinePoints) : LC_SplinePoints := s

/-- Modelled from the spec: `getPoints` yields the point sequence. -/
def getPoints (s : LC_SplinePoints) : List RS_Vector := s.data.splinePoints

end LC_SplinePoints

/-- The value read by `back()` on a sequence; `none` when the sequence is
empty, where the read is undefined behaviour. -/
def back (l : List RS_Vector) : Option RS_Vector := l.getLast?

/-- Modelled from the spec: `enum Status` of the header (not part of the
sources at hand), with the default numbering; `SetStartPoint` is the status
just below `SetNextPoint`, which is what `init(getStatus() - 1)` relies on. -/
def SetStartPoint : Int := 0

/-- Modelled from the spec: second value of `enum Status`, see `SetStartPoint`. -/
def SetNextPoint : Int := 1

/-- Calls made on the collaborators of the action, as they appear in the
source. -/
inductive Effect where
  /-- Call `RS_DIALOGFACTORY->commandMessage(msg)` -/
  | commandMessage (msg : String)
  /-- Call `RS_DIALOGFACTORY->updateMouseWidget(left, right)` -/
  | updateMouseWidget (left right : String)
  /-- Call `container->addEntity(s)` -/
  | addEntity (s : LC_SplinePoints)
  /-- Call `document->startUndoCycle()` -/
  | startUndoCycle
  /-- Call `document->addUndoable(s)` -/
  | addUndoable (s : LC_SplinePoints)
  /-- Call `document->endUndoCycle()` -/
  | endUndoCycle
  /-- Call `graphicView->redraw(RS2::RedrawDrawing)` -/
  | redraw
  /-- Call `graphicView->moveRelativeZero(v)` -/
  | moveRelativeZero (v : Option RS_Vector)
  /-- Call `graphicView->moveRelativeZero(r)` with `r` the relative zero read
  before the redraw in `trigger` -/
  | restoreRelativeZero
  /-- Call `deletePreview()` -/
  | deletePreview
  /-- Call `drawPreview()` -/
  | drawPreview
  /-- Call `drawSnapper()` -/
  | drawSnapper
  /-- Call `preview->addEntity(sp)` for a spline -/
  | previewAddSpline (s : LC_SplinePoints)
  /-- Call `preview->addEntity(new RS_Point(..., RS_PointData(v)))` -/
  | previewAddPoint (v : RS_Vector)
deriving DecidableEq, Repr

/-- The command dictionary and the strings the action takes from its base
class; none of them is defined in the file. -/
structure Commands where
  /-- Base-class `checkCommand(cmd, str)`: does the typed `str` stand for `cmd`? -/
  checkCommand : String → String → Bool
  /-- Either `command(cmd)` or `RS_COMMANDS->command(cmd)`: the displayed command -/
  command : String → String
  /-- Base-class `msgAvailableCommands()` -/
  msgAvailableCommands : String

/-- Qt `QString::toLower` on the command text. -/
def toLower (s : String) : String := s.map Char.toLower

/-- Qt `QStringList::join(sep)`. -/
def join (l : List String) (sep : String) : String := sep.intercalate l

/-- The mouse button of a `QMouseEvent`. -/
inductive MouseButton where
  | LeftButton
  | RightButton
  | OtherButton
deriving DecidableEq, Repr

/-- A `QMouseEvent` together with the coordinate `snapPoint(e)` yields for it. -/
structure QMouseEvent where
  button : MouseButton
  snapPoint : RS_Vector
deriving DecidableEq, Repr

/-- The member variables of the action: the status kept by the base class, the
action's own `data`, the spline under construction (`none` is the null
pointer), the undo buffer (its back is the top), and whether `document` is
non-null. -/
structure LC_ActionDrawSplinePoints where
  status : Int
  data : LC_SplinePointsData
  spline : Option LC_SplinePoints
  undoBuffer : List RS_Vector
  document : Bool
deriving DecidableEq, Repr

/-- The two places where the file runs into undefined behaviour. -/
inductive Fault where
  /-- Dereference of `spline` while it is the null pointer -/
  | nullSpline
  /-- Read of `back()` on an empty sequence -/
  | emptyBack
deriving DecidableEq, Repr

/-- What a call of a member function comes to: it returns the new action and
the collaborator calls it made, or it stops at a fault. -/
inductive Outcome where
  | returns (r : LC_ActionDrawSplinePoints × List Effect)
  | fault (f : Fault)
deriving DecidableEq, Repr

namespace Outcome

/-- The result of a call that returns, `none` for a call that stops at a
fault. -/
def result : Outcome → Option (LC_ActionDrawSplinePoints × List Effect)
  | returns r => some r
  | fault _ => none

/-- Code that runs after a call has returned; a fault is passed on. -/
def map (f : LC_ActionDrawSplinePoints × List Effect →
    LC_ActionDrawSplinePoints × List Effect) : Outcome → Outcome
  | returns r => returns (f r)
  | fault e => fault e

end Outcome

namespace LC_ActionDrawSplinePoints

/-- The constructor: `data(new LC_SplinePointsData(false, false))`,
`spline(nullptr)`; the base class starts with status 0. -/
def construct (document : Bool) : LC_ActionDrawSplinePoints :=
  { status := 0, data := ⟨false, false, []⟩, spline := none, undoBuffer := [],
    document := document }

/-- Member function `getStatus()`. -/
def getStatus (a : LC_ActionDrawSplinePoints) : Int := a.status

/-- Modelled from the spec: `setStatus` of the base class (not part of the
sources at hand) stores the status. -/
def setStatus (a : LC_ActionDrawSplinePoints) (status : Int) :
    LC_ActionDrawSplinePoints :=
  { a with status := status }

/-- Member function `reset()`: `spline.reset(); undoBuffer.clear();` -/
def reset (a : LC_ActionDrawSplinePoints) : LC_ActionDrawSplinePoints :=
  { a with spline := none, undoBuffer := [] }

/-- Member function `init(status)`: the base-class `init` (modelled as storing the status, as
`setStatus`), then `reset()`. -/
def init (a : LC_ActionDrawSplinePoints) (status : Int) :
    LC_ActionDrawSplinePoints :=
  reset (setStatus a status)

/-- Member function `trigger()`. -/
def trigger (a : LC_ActionDrawSplinePoints) :
    LC_ActionDrawSplinePoints × List Effect :=
  match a.spline with
  | none => (a, [])
  | some sp =>
    let s := sp.clone
    (reset a,
      [Effect.addEntity s]
        ++ (if a.document then
              [Effect.startUndoCycle, Effect.addUndoable s, Effect.endUndoCycle]
            else [])
        ++ [Effect.redraw, Effect.restoreRelativeZero])

/-- Member function `mouseMoveEvent(e)`, with `mouse = snapPoint(e)`.  `spline->clone()` is
not guarded. -/
def mouseMoveEvent (a : LC_ActionDrawSplinePoints) (mouse : RS_Vector) : Outcome :=
  if a.getStatus = SetNextPoint then
    match a.spline with
    | none => Outcome.fault Fault.nullSpline
    | some spline =>
      let sp := spline.clone.addPoint mouse
      Outcome.returns (a,
        [Effect.deletePreview, Effect.previewAddSpline sp]
          ++ sp.getPoints.map Effect.previewAddPoint
          ++ [Effect.drawPreview])
  else Outcome.returns (a, [])

/-- Member function `getAvailableCommands()`. -/
def getAvailableCommands (env : Commands) (a : LC_ActionDrawSplinePoints) :
    List String :=
  if a.getStatus = SetStartPoint then []
  else if a.getStatus = SetNextPoint then
    (if a.data.splinePoints.length > 0 then [env.command "undo"] else [])
      ++ (if a.undoBuffer.length > 0 then [env.command "redo"] else [])
      ++ (if a.data.splinePoints.length > 2 then [env.command "close"] else [])
  else []

/-- Member function `updateMouseButtonHints()`; `tr(...).arg(msg)` puts `msg` in place of
`%1`. -/
def updateMouseButtonHints (env : Commands) (a : LC_ActionDrawSplinePoints) :
    List Effect :=
  if a.getStatus = SetStartPoint then
    [Effect.updateMouseWidget "Specify first control point" "Cancel"]
  else if a.getStatus = SetNextPoint then
    let msg :=
      (if a.data.splinePoints.length > 2 then env.command "close" ++ "/" else "")
        ++ (if a.data.splinePoints.length > 0 then env.command "undo" else "")
        ++ (if a.undoBuffer.length > 0 then env.command "redo" else "")
    if a.data.splinePoints.length > 0 then
      [Effect.updateMouseWidget ("Specify next control point or [" ++ msg ++ "]")
        "Back"]
    else
      [Effect.updateMouseWidget "Specify next control point" "Back"]
  else
    [Effect.updateMouseWidget "" ""]

/-- Member function `coordinateEvent(e)`; `none` is the null event, otherwise the argument is
`e->getCoordinate()`. -/
def coordinateEvent (env : Commands) (a : LC_ActionDrawSplinePoints)
    (e : Option RS_Vector) : LC_ActionDrawSplinePoints × List Effect :=
  match e with
  | none => (a, [])
  | some mouse =>
    if a.getStatus = SetStartPoint then
      let a1 := { a with undoBuffer := [] }
      let r : LC_ActionDrawSplinePoints × List Effect :=
        match a1.spline with
        | none =>
          ({ a1 with spline := some ((LC_SplinePoints.create a1.data).addPoint mouse) },
            [Effect.previewAddPoint mouse])
        | some _ => (a1, [])
      let a2 := r.1.setStatus SetNextPoint
      (a2, r.2 ++ [Effect.moveRelativeZero (some mouse)]
            ++ updateMouseButtonHints env a2)
    else if a.getStatus = SetNextPoint then
      let r : LC_ActionDrawSplinePoints × List Effect :=
        match a.spline with
        | some spline =>
          ({ a with spline := some (spline.addPoint mouse) },
            [Effect.drawPreview, Effect.drawSnapper])
        | none => (a, [])
      (r.1, [Effect.moveRelativeZero (some mouse)] ++ r.2
            ++ updateMouseButtonHints env r.1)
    else (a, [])

/-- Member function `undo()`. -/
def undo (a : LC_ActionDrawSplinePoints) :
    LC_ActionDrawSplinePoints × List Effect :=
  match a.spline with
  | none =>
    (a, [Effect.commandMessage "Cannot undo: Not enough entities defined yet."])
  | some spline =>
    if h : spline.data.splinePoints.length > 1 then
      let v := spline.data.splinePoints.getLast (List.ne_nil_of_length_pos (by omega))
      let spline1 := spline.removeLastPoint
      let a1 := { a with undoBuffer := a.undoBuffer ++ [v], spline := some spline1 }
      let r : LC_ActionDrawSplinePoints × List Effect :=
        if spline1.data.splinePoints.length = 0 then
          (a1.setStatus SetStartPoint, [])
        else
          (a1, [Effect.moveRelativeZero (back spline1.data.splinePoints)])
      (r.1, r.2 ++ [Effect.redraw, Effect.drawPreview])
    else
      (a, [Effect.commandMessage "Cannot undo: Not enough entities defined yet."])

/-- Member function `redo()`.  `spline->addPoint(v)` is not guarded.  The
coordinate passed to `moveRelativeZero` is read with `back()` from the action's
own `data`, not from the spline; when that sequence is empty the read is
undefined behaviour and the call stops there: it does not return and makes no
collaborator call. -/
def redo (a : LC_ActionDrawSplinePoints) : Outcome :=
  if h : a.undoBuffer.length > 1 then
    match a.spline with
    | none => Outcome.fault Fault.nullSpline
    | some spline =>
      let v := a.undoBuffer.getLast (List.ne_nil_of_length_pos (by omega))
      let a1 := { a with spline := some (spline.addPoint v),
                         undoBuffer := a.undoBuffer.dropLast }
      let a2 := a1.setStatus SetNextPoint
      match back a2.data.splinePoints with
      | none => Outcome.fault Fault.emptyBack
      | some w => Outcome.returns (a2, [Effect.moveRelativeZero (some w), Effect.redraw])
  else
    Outcome.returns (a, [Effect.commandMessage "Cannot undo: Nothing could be redone."])

/-- Member function `commandEvent(e)`, with `cmd = e->getCommand()`. -/
def commandEvent (env : Commands) (a : LC_ActionDrawSplinePoints) (cmd : String) :
    Outcome :=
  let c := toLower cmd
  if a.getStatus = SetStartPoint then
    if env.checkCommand "help" c then
      Outcome.returns (a, [Effect.commandMessage
        (env.msgAvailableCommands ++ join (getAvailableCommands env a) ", ")])
    else Outcome.returns (a, [])
  else if a.getStatus = SetNextPoint then
    if env.checkCommand "undo" c then
      let r := undo a
      Outcome.returns (r.1, r.2 ++ updateMouseButtonHints env r.1)
    else if env.checkCommand "redo" c then
      (redo a).map fun r => (r.1, r.2 ++ updateMouseButtonHints env r.1)
    else Outcome.returns (a, [])
  else Outcome.returns (a, [])

/-- Member function `mouseReleaseEvent(e)`. -/
def mouseReleaseEvent (env : Commands) (a : LC_ActionDrawSplinePoints)
    (e : QMouseEvent) : LC_ActionDrawSplinePoints × List Effect :=
  match e.button with
  | MouseButton.LeftButton => coordinateEvent env a (some e.snapPoint)
  | MouseButton.RightButton =>
    let r : LC_ActionDrawSplinePoints × List Effect :=
      if a.getStatus = SetNextPoint ∧ a.spline.isSome then trigger a else (a, [])
    (r.1.init (r.1.getStatus - 1), r.2)
  | MouseButton.OtherButton => (a, [])

/-- Member function `setClosed(c)`. -/
def setClosed (a : LC_ActionDrawSplinePoints) (c : Bool) :
    LC_ActionDrawSplinePoints :=
  { a with data := { a.data with closed := c },
           spline := a.spline.map (fun s => s.setClosed c) }

/-- Member function `isClosed()`. -/
def isClosed (a : LC_ActionDrawSplinePoints) : Bool := a.data.closed

/-- A run of left clicks: `coordinateEvent` once per coordinate, in order. -/
def clicks (env : Commands) (a : LC_ActionDrawSplinePoints) :
    List RS_Vector → LC_ActionDrawSplinePoints
  | [] => a
  | p :: ps => clicks env (coordinateEvent env a (some p)).1 ps

/-- The user inputs the action receives while a curve is drawn. -/
inductive Event where
  | coordinate (e : Option RS_Vector)
  | command (cmd : String)
  | undo
  | redo
  | mouseRelease (e : QMouseEvent)
deriving DecidableEq, Repr

/-- One user input handled by the action. -/
def step (env : Commands) (a : LC_ActionDrawSplinePoints) : Event → Outcome
  | Event.coordinate e => Outcome.returns (coordinateEvent env a e)
  | Event.command cmd => commandEvent env a cmd
  | Event.undo => Outcome.returns (undo a)
  | Event.redo => redo a
  | Event.mouseRelease e => Outcome.returns (mouseReleaseEvent env a e)

/-- Every operation of the action that can change its member variables. -/
inductive Operation where
  | reset
  | init (status : Int)
  | trigger
  | mouseMove (mouse : RS_Vector)
  | mouseRelease (e : QMouseEvent)
  | coordinate (e : Option RS_Vector)
  | command (cmd : String)
  | undo
  | redo
  | setClosed (c : Bool)
deriving DecidableEq, Repr

/-- One operation applied to the action. -/
def operate (env : Commands) (a : LC_ActionDrawSplinePoints) : Operation → Outcome
  | Operation.reset => Outcome.returns (reset a, [])
  | Operation.init status => Outcome.returns (init a status, [])
  | Operation.trigger => Outcome.returns (trigger a)
  | Operation.mouseMove mouse => mouseMoveEvent a mouse
  | Operation.mouseRelease e => Outcome.returns (mouseReleaseEvent env a e)
  | Operation.coordinate e => Outcome.returns (coordinateEvent env a e)
  | Operation.command cmd => commandEvent env a cmd
  | Operation.undo => Outcome.returns (undo a)
  | Operation.redo => redo a
  | Operation.setClosed c => Outcome.returns (setClosed a c, [])

/-- States reached from a start state by a sequence of steps that return. -/
inductive ReachableFrom {E : Type}
    (stp : LC_ActionDrawSplinePoints → E → Outcome)
    (start : LC_ActionDrawSplinePoints → Prop) : LC_ActionDrawSplinePoints → Prop where
  | start {a : LC_ActionDrawSplinePoints} : start a → ReachableFrom stp start a
  | step {a : LC_ActionDrawSplinePoints} {e : E}
      {r : LC_ActionDrawSplinePoints × List Effect} :
      ReachableFrom stp start a → stp a e = Outcome.returns r →
      ReachableFrom stp start r.1

/-- The states produced by `init(SetStartPoint)`. -/
def IsInit (a : LC_ActionDrawSplinePoints) : Prop :=
  ∃ a0 : LC_ActionDrawSplinePoints, a = a0.init SetStartPoint

/-- The states produced by the constructor. -/
def IsConstructed (a : LC_ActionDrawSplinePoints) : Prop :=
  ∃ document : Bool, a = construct document

/-- A command dictionary without translations or aliases: a typed string
stands for a command exactly when it is that command. -/
def plainCommands : Commands :=
  { checkCommand := fun cmd str => cmd == str
    command := fun cmd => cmd
    msgAvailableCommands := "Available commands:" }

/-- Sample coordinates. -/
def pt (n : Int) : RS_Vector := ⟨n, 0⟩

/-- A curve in progress: status `SetNextPoint`, an open spline through the
given points, the given undo buffer, a document present. -/
def inProgress (points undoBuffer : List RS_Vector) : LC_ActionDrawSplinePoints :=
  { status := SetNextPoint, data := ⟨false, false, []⟩,
    spline := some ⟨⟨false, false, points⟩⟩, undoBuffer := undoBuffer,
    document := true }

/-- The entities handed to `container->addEntity`, in call order. -/
def addedEntities (fx : List Effect) : List LC_SplinePoints :=
  fx.filterMap fun e =>
    match e with
    | Effect.addEntity s => some s
    | _ => none

/-- The entities handed to `document->addUndoable`, in call order. -/
def undoables (fx : List Effect) : List LC_SplinePoints :=
  fx.filterMap fun e =>
    match e with
    | Effect.addUndoable s => some s
    | _ => none

/-- The closed flag of the action's own data and of the spline under
construction (when there is one). -/
def closedFlags (a : LC_ActionDrawSplinePoints) : Bool × Option Bool :=
  (a.data.closed, a.spline.map fun s => s.data.closed)

/-- The invariant of a drawing session: the status never exceeds
`SetNextPoint`, status `SetNextPoint` comes with a spline, a spline always
holds a point, and without a spline the undo buffer is empty. -/
def CurveInvariant (a : LC_ActionDrawSplinePoints) : Prop :=
  a.status ≤ SetNextPoint ∧
  (a.status = SetNextPoint → a.spline ≠ none) ∧
  (∀ sp : LC_SplinePoints, a.spline = some sp → sp.data.splinePoints ≠ []) ∧
  (a.spline = none → a.undoBuffer = [])

/-- The invariant of the action's own data: it holds no points, and without a
spline the undo buffer is empty. -/
def DataInvariant (a : LC_ActionDrawSplinePoints) : Prop :=
  a.data.splinePoints = [] ∧ (a.spline = none → a.undoBuffer = [])

end LC_ActionDrawSplinePoints

/-! ## Properties of the single operations -/

namespace LC_ActionDrawSplinePoints

theorem undo_of_null (a : LC_ActionDrawSplinePoints) (h : a.spline = none) :
    undo a = (a, [Effect.commandMessage "Cannot undo: Not enough entities defined yet."]) := by
  simp [undo, h]

theorem undo_of_few (a : LC_ActionDrawSplinePoints) (sp : LC_SplinePoints)
    (h : a.spline = some sp) (hn : sp.data.splinePoints.length < 2) :
    undo a = (a, [Effect.commandMessage "Cannot undo: Not enough entities defined yet."]) := by
  have : ¬ sp.data.splinePoints.length > 1 := by omega
  simp [undo, h, this]

theorem undo_of_many (a : LC_ActionDrawSplinePoints) (sp : LC_SplinePoints)
    (qs : List RS_Vector) (v : RS_Vector)
    (h : a.spline = some sp) (hp : sp.data.splinePoints = qs ++ [v]) (hq : qs ≠ []) :
    undo a =
      ({ a with undoBuffer := a.undoBuffer ++ [v],
                spline := some ⟨{ sp.data with splinePoints := qs }⟩ },
        [Effect.moveRelativeZero (back qs), Effect.redraw, Effect.drawPreview]) := by
  have hlen : sp.data.splinePoints.length > 1 := by
    have := List.length_pos.mpr hq
    simp [hp]; omega
  have hq0 : qs.length ≠ 0 := by
    have := List.length_pos.mpr hq
    omega
  simp [undo, h, hlen, LC_SplinePoints.removeLastPoint, hp, hq, hq0, setStatus]

theorem redo_of_short (a : LC_ActionDrawSplinePoints) (h : a.undoBuffer.length ≤ 1) :
    redo a =
      Outcome.returns
        (a, [Effect.commandMessage "Cannot undo: Nothing could be redone."]) := by
  have : ¬ a.undoBuffer.length > 1 := by omega
  simp [redo, this]

theorem redo_of_long_null (a : LC_ActionDrawSplinePoints)
    (h : a.spline = none) (hlen : 1 < a.undoBuffer.length) :
    redo a = Outcome.fault Fault.nullSpline := by
  simp [redo, h, hlen]

/-- A `redo()` that passes the length test while the action's own data holds
no point stops at the `back()` read. -/
theorem redo_of_long_empty (a : LC_ActionDrawSplinePoints) (sp : LC_SplinePoints)
    (h : a.spline = some sp) (hlen : 1 < a.undoBuffer.length)
    (hd : a.data.splinePoints = []) :
    redo a = Outcome.fault Fault.emptyBack := by
  simp [redo, h, hlen, setStatus, hd, back]

theorem redo_of_long (a : LC_ActionDrawSplinePoints) (sp : LC_SplinePoints)
    (b : List RS_Vector) (u w : RS_Vector)
    (h : a.spline = some sp) (hb : a.undoBuffer = b ++ [u]) (hne : b ≠ [])
    (hw : back a.data.splinePoints = some w) :
    redo a =
      Outcome.returns ({ a with spline := some (sp.addPoint u), undoBuffer := b,
                                status := SetNextPoint },
        [Effect.moveRelativeZero (some w), Effect.redraw]) := by
  simp [redo, h, hb, hne, setStatus, hw]

theorem coordinateEvent_start (env : Commands) (a : LC_ActionDrawSplinePoints)
    (p : RS_Vector) (hst : a.status = SetStartPoint) (hsp : a.spline = none) :
    (coordinateEvent env a (some p)).1 =
      { a with undoBuffer := [], status := SetNextPoint,
               spline := some ((LC_SplinePoints.create a.data).addPoint p) } := by
  simp [coordinateEvent, getStatus, hst, hsp, setStatus]

theorem coordinateEvent_next (env : Commands) (a : LC_ActionDrawSplinePoints)
    (sp : LC_SplinePoints) (p : RS_Vector)
    (hst : a.status = SetNextPoint) (hsp : a.spline = some sp) :
    (coordinateEvent env a (some p)).1 = { a with spline := some (sp.addPoint p) } := by
  simp [coordinateEvent, getStatus, hst, hsp, SetNextPoint, SetStartPoint]

theorem clicks_next (env : Commands) (ps : List RS_Vector) :
    ∀ (a : LC_ActionDrawSplinePoints) (sp : LC_SplinePoints),
      a.status = SetNextPoint → a.spline = some sp →
      clicks env a ps =
        { a with
          spline := some ⟨{ sp.data with splinePoints := sp.data.splinePoints ++ ps }⟩ } := by
  induction ps with
  | nil =>
    intro a sp _ hsp
    simp [clicks, ← hsp]
  | cons p ps ih =>
    intro a sp hst hsp
    rw [clicks, coordinateEvent_next env a sp p hst hsp]
    have h := ih { a with spline := some (sp.addPoint p) } (sp.addPoint p) hst rfl
    rw [h]
    simp [LC_SplinePoints.addPoint]

theorem clicks_fresh (env : Commands) (a : LC_ActionDrawSplinePoints)
    (p : RS_Vector) (ps : List RS_Vector)
    (hst : a.status = SetStartPoint) (hsp : a.spline = none) :
    clicks env a (p :: ps) =
      { a with
        undoBuffer := [], status := SetNextPoint,
        spline := some ⟨{ a.data with splinePoints := a.data.splinePoints ++ p :: ps }⟩ } := by
  rw [clicks, coordinateEvent_start env a p hst hsp]
  rw [clicks_next env ps _ ((LC_SplinePoints.create a.data).addPoint p) rfl rfl]
  simp [LC_SplinePoints.addPoint, LC_SplinePoints.create]

theorem exists_concat_of_length_gt_one (l : List RS_Vector) (h : 1 < l.length) :
    ∃ (q : List RS_Vector) (v : RS_Vector), l = q ++ [v] ∧ q ≠ [] := by
  have hne : l ≠ [] := by
    intro h0; simp [h0] at h
  refine ⟨l.dropLast, l.getLast hne, (List.dropLast_append_getLast hne).symm, ?_⟩
  intro h0
  have := congrArg List.length h0
  rw [List.length_dropLast] at this
  simp only [List.length_nil] at this
  omega

/-- What a `redo()` that returns has done: it was refused, or it moved the top
of the undo buffer to the spline and read a coordinate from the action's own
data. -/
theorem redo_returns_cases (a : LC_ActionDrawSplinePoints)
    (r : LC_ActionDrawSplinePoints × List Effect) (h : redo a = Outcome.returns r) :
    (a.undoBuffer.length ≤ 1 ∧
      r = (a, [Effect.commandMessage "Cannot undo: Nothing could be redone."])) ∨
    (∃ (sp : LC_SplinePoints) (b : List RS_Vector) (u w : RS_Vector),
      a.spline = some sp ∧ a.undoBuffer = b ++ [u] ∧ b ≠ [] ∧
      back a.data.splinePoints = some w ∧
      r = ({ a with spline := some (sp.addPoint u), undoBuffer := b,
                    status := SetNextPoint },
            [Effect.moveRelativeZero (some w), Effect.redraw])) := by
  by_cases hn : a.undoBuffer.length ≤ 1
  · rw [redo_of_short a hn] at h
    cases h
    exact Or.inl ⟨hn, rfl⟩
  · obtain ⟨b, u, hb, hne⟩ := exists_concat_of_length_gt_one a.undoBuffer (by omega)
    cases hsp : a.spline with
    | none =>
      rw [redo_of_long_null a hsp (by omega)] at h
      cases h
    | some sp =>
      cases hw : back a.data.splinePoints with
      | none =>
        have hd : a.data.splinePoints = [] := by
          simpa [back] using hw
        rw [redo_of_long_empty a sp hsp (by omega) hd] at h
        cases h
      | some w =>
        rw [redo_of_long a sp b u w hsp hb hne hw] at h
        cases h
        exact Or.inr ⟨sp, b, u, w, rfl, hb, hne, rfl, rfl⟩

/-- In a state whose own data holds no point (every state the action can be
in), `undo()` followed by `redo()` does not restore the action when the undo
buffer already held a point: the `redo()` stops at the `back()` read. -/
theorem undo_redo_of_nonempty_buffer (a : LC_ActionDrawSplinePoints)
    (sp : LC_SplinePoints) (hsp : a.spline = some sp)
    (hlen : 2 ≤ sp.data.splinePoints.length) (hbuf : a.undoBuffer ≠ [])
    (hd : a.data.splinePoints = []) :
    redo (undo a).1 = Outcome.fault Fault.emptyBack := by
  obtain ⟨q, v, hp, hq⟩ := exists_concat_of_length_gt_one sp.data.splinePoints (by omega)
  rw [undo_of_many a sp q v hsp hp hq]
  have hpos := List.length_pos.mpr hbuf
  exact redo_of_long_empty _ ⟨{ sp.data with splinePoints := q }⟩ rfl
    (by simp; omega) hd

theorem undo_data (a : LC_ActionDrawSplinePoints) : (undo a).1.data = a.data := by
  cases hsp : a.spline with
  | none => rw [undo_of_null a hsp]
  | some sp =>
    by_cases hn : sp.data.splinePoints.length < 2
    · rw [undo_of_few a sp hsp hn]
    · obtain ⟨q, v, hp, hq⟩ :=
        exists_concat_of_length_gt_one sp.data.splinePoints (by omega)
      rw [undo_of_many a sp q v hsp hp hq]

theorem undo_closedFlags (a : LC_ActionDrawSplinePoints) :
    closedFlags (undo a).1 = closedFlags a := by
  cases hsp : a.spline with
  | none => rw [undo_of_null a hsp]
  | some sp =>
    by_cases hn : sp.data.splinePoints.length < 2
    · rw [undo_of_few a sp hsp hn]
    · obtain ⟨q, v, hp, hq⟩ :=
        exists_concat_of_length_gt_one sp.data.splinePoints (by omega)
      rw [undo_of_many a sp q v hsp hp hq]
      simp [closedFlags, hsp]

theorem redo_data (a : LC_ActionDrawSplinePoints)
    (r : LC_ActionDrawSplinePoints × List Effect) (h : redo a = Outcome.returns r) :
    r.1.data = a.data := by
  rcases redo_returns_cases a r h with ⟨_, rfl⟩ | ⟨sp, b, u, w, _, _, _, _, rfl⟩ <;> rfl

theorem redo_closedFlags (a : LC_ActionDrawSplinePoints)
    (r : LC_ActionDrawSplinePoints × List Effect) (h : redo a = Outcome.returns r) :
    closedFlags r.1 = closedFlags a := by
  rcases redo_returns_cases a r h with ⟨_, rfl⟩ | ⟨sp, b, u, w, hsp, _, _, _, rfl⟩
  · rfl
  · simp [closedFlags, hsp, LC_SplinePoints.addPoint]

/-- What `commandEvent` comes to, by status and by what the dictionary says of
the lower-cased command. -/
theorem commandEvent_cases (env : Commands) (a : LC_ActionDrawSplinePoints)
    (cmd : String) :
    (∃ fx : List Effect, commandEvent env a cmd = Outcome.returns (a, fx)) ∨
    (a.status = SetNextPoint ∧ env.checkCommand "undo" (toLower cmd) = true ∧
      commandEvent env a cmd =
        Outcome.returns
          ((undo a).1, (undo a).2 ++ updateMouseButtonHints env (undo a).1)) ∨
    (a.status = SetNextPoint ∧ env.checkCommand "undo" (toLower cmd) = false ∧
      env.checkCommand "redo" (toLower cmd) = true ∧
      commandEvent env a cmd =
        (redo a).map fun r => (r.1, r.2 ++ updateMouseButtonHints env r.1)) := by
  simp only [commandEvent, getStatus]
  by_cases h0 : a.status = SetStartPoint
  · rw [if_pos h0]
    by_cases hh : env.checkCommand "help" (toLower cmd) = true
    · rw [if_pos hh]
      exact Or.inl ⟨_, rfl⟩
    · rw [if_neg hh]
      exact Or.inl ⟨_, rfl⟩
  · rw [if_neg h0]
    by_cases h1 : a.status = SetNextPoint
    · rw [if_pos h1]
      by_cases hu : env.checkCommand "undo" (toLower cmd) = true
      · rw [if_pos hu]
        exact Or.inr (Or.inl ⟨h1, hu, rfl⟩)
      · rw [if_neg hu]
        by_cases hr : env.checkCommand "redo" (toLower cmd) = true
        · rw [if_pos hr]
          exact Or.inr (Or.inr ⟨h1, by simpa using hu, hr, rfl⟩)
        · rw [if_neg hr]
          exact Or.inl ⟨_, rfl⟩
    · rw [if_neg h1]
      exact Or.inl ⟨_, rfl⟩

/-- A `commandEvent` that returns has returned the action as it was, or has
run `undo()`, or has run a `redo()` that returned. -/
theorem commandEvent_returns_cases (env : Commands) (a : LC_ActionDrawSplinePoints)
    (cmd : String) (r : LC_ActionDrawSplinePoints × List Effect)
    (h : commandEvent env a cmd = Outcome.returns r) :
    r.1 = a ∨ r.1 = (undo a).1 ∨
    ∃ r1 : LC_ActionDrawSplinePoints × List Effect,
      redo a = Outcome.returns r1 ∧ r.1 = r1.1 := by
  rcases commandEvent_cases env a cmd with ⟨fx, h1⟩ | ⟨_, _, h1⟩ | ⟨_, _, _, h1⟩
  · rw [h1] at h; cases h; exact Or.inl rfl
  · rw [h1] at h; cases h; exact Or.inr (Or.inl rfl)
  · rw [h1] at h
    cases hr : redo a with
    | fault f => rw [hr] at h; cases h
    | returns r1 =>
      rw [hr] at h
      cases h
      exact Or.inr (Or.inr ⟨r1, rfl, rfl⟩)

theorem commandEvent_data (env : Commands) (a : LC_ActionDrawSplinePoints)
    (cmd : String) (r : LC_ActionDrawSplinePoints × List Effect)
    (h : commandEvent env a cmd = Outcome.returns r) : r.1.data = a.data := by
  rcases commandEvent_returns_cases env a cmd r h with h1 | h1 | ⟨r1, hr, h1⟩
  · rw [h1]
  · rw [h1]; exact undo_data a
  · rw [h1]; exact redo_data a r1 hr

theorem commandEvent_closedFlags (env : Commands) (a : LC_ActionDrawSplinePoints)
    (cmd : String) (r : LC_ActionDrawSplinePoints × List Effect)
    (h : commandEvent env a cmd = Outcome.returns r) :
    closedFlags r.1 = closedFlags a := by
  rcases commandEvent_returns_cases env a cmd r h with h1 | h1 | ⟨r1, hr, h1⟩
  · rw [h1]
  · rw [h1]; exact undo_closedFlags a
  · rw [h1]; exact redo_closedFlags a r1 hr

theorem undo_undoBuffer_ne_nil (a : LC_ActionDrawSplinePoints)
    (h : a.undoBuffer ≠ []) : (undo a).1.undoBuffer ≠ [] := by
  cases hsp : a.spline with
  | none => rw [undo_of_null a hsp]; exact h
  | some sp =>
    by_cases hn : sp.data.splinePoints.length < 2
    · rw [undo_of_few a sp hsp hn]; exact h
    · obtain ⟨q, v, hp, hq⟩ :=
        exists_concat_of_length_gt_one sp.data.splinePoints (by omega)
      rw [undo_of_many a sp q v hsp hp hq]
      simp

theorem redo_undoBuffer_ne_nil (a : LC_ActionDrawSplinePoints)
    (r : LC_ActionDrawSplinePoints × List Effect)
    (h : a.undoBuffer ≠ []) (hr : redo a = Outcome.returns r) : r.1.undoBuffer ≠ [] := by
  rcases redo_returns_cases a r hr with ⟨_, rfl⟩ | ⟨sp, b, u, w, _, _, hne, _, rfl⟩
  · exact h
  · exact hne

theorem commandEvent_undoBuffer_ne_nil (env : Commands) (a : LC_ActionDrawSplinePoints)
    (cmd : String) (r : LC_ActionDrawSplinePoints × List Effect)
    (h : a.undoBuffer ≠ []) (hr : commandEvent env a cmd = Outcome.returns r) :
    r.1.undoBuffer ≠ [] := by
  rcases commandEvent_returns_cases env a cmd r hr with h1 | h1 | ⟨r1, hr1, h1⟩
  · rw [h1]; exact h
  · rw [h1]; exact undo_undoBuffer_ne_nil a h
  · rw [h1]; exact redo_undoBuffer_ne_nil a r1 h hr1

theorem coordinateEvent_undoBuffer (env : Commands) (a : LC_ActionDrawSplinePoints)
    (e : Option RS_Vector) (h : a.status ≠ SetStartPoint) :
    (coordinateEvent env a e).1.undoBuffer = a.undoBuffer := by
  cases e with
  | none => rfl
  | some mouse =>
    simp only [coordinateEvent, getStatus, if_neg h]
    by_cases h1 : a.status = SetNextPoint
    · rw [if_pos h1]
      cases a.spline <;> rfl
    · rw [if_neg h1]

theorem mouseMoveEvent_state (a : LC_ActionDrawSplinePoints) (mouse : RS_Vector)
    (r : LC_ActionDrawSplinePoints × List Effect)
    (h : mouseMoveEvent a mouse = Outcome.returns r) :
    r.1 = a := by
  simp only [mouseMoveEvent] at h
  split at h
  · split at h
    · cases h
    · cases h; rfl
  · cases h; rfl

/-! ### The session invariant -/

theorem status_ne : SetNextPoint ≠ SetStartPoint := by decide

theorem curveInvariant_init (a : LC_ActionDrawSplinePoints) (status : Int)
    (h : status < SetNextPoint) : CurveInvariant (a.init status) := by
  refine ⟨?_, ?_, ?_, ?_⟩
  · exact le_of_lt h
  · intro h1
    have : (a.init status).status = status := rfl
    omega
  · intro sp h1
    cases h1
  · intro _; rfl

theorem curveInvariant_coordinateEvent (env : Commands) (a : LC_ActionDrawSplinePoints)
    (e : Option RS_Vector) (h : CurveInvariant a) :
    CurveInvariant (coordinateEvent env a e).1 := by
  obtain ⟨h1, h2, h3, h4⟩ := h
  cases e with
  | none => exact ⟨h1, h2, h3, h4⟩
  | some mouse =>
    simp only [coordinateEvent, getStatus]
    by_cases hs : a.status = SetStartPoint
    · rw [if_pos hs]
      cases hsp : a.spline with
      | none =>
        simp [CurveInvariant, setStatus, LC_SplinePoints.addPoint, LC_SplinePoints.create]
      | some sp =>
        have := h3 sp hsp
        simp [CurveInvariant, setStatus, hsp, this]
    · rw [if_neg hs]
      by_cases hn : a.status = SetNextPoint
      · rw [if_pos hn]
        cases hsp : a.spline with
        | none => exact absurd hsp (h2 hn)
        | some sp =>
          simp [CurveInvariant, hn, LC_SplinePoints.addPoint]
      · rw [if_neg hn]
        exact ⟨h1, h2, h3, h4⟩

theorem curveInvariant_undo (a : LC_ActionDrawSplinePoints) (h : CurveInvariant a) :
    CurveInvariant (undo a).1 := by
  obtain ⟨h1, h2, h3, h4⟩ := h
  cases hsp : a.spline with
  | none => rw [undo_of_null a hsp]; exact ⟨h1, h2, h3, h4⟩
  | some sp =>
    by_cases hn : sp.data.splinePoints.length < 2
    · rw [undo_of_few a sp hsp hn]; exact ⟨h1, h2, h3, h4⟩
    · obtain ⟨q, v, hp, hq⟩ :=
        exists_concat_of_length_gt_one sp.data.splinePoints (by omega)
      rw [undo_of_many a sp q v hsp hp hq]
      refine ⟨h1, ?_, ?_, ?_⟩
      · intro _; simp
      · intro sp1 hsp1
        simp at hsp1
        rw [← hsp1]
        exact hq
      · intro hnone
        simp at hnone

theorem map_eq_fault (o : Outcome)
    (f : LC_ActionDrawSplinePoints × List Effect → LC_ActionDrawSplinePoints × List Effect)
    (e : Fault) (h : o.map f = Outcome.fault e) : o = Outcome.fault e := by
  cases o with
  | returns r => cases h
  | fault e1 => exact h

theorem curveInvariant_redo (a : LC_ActionDrawSplinePoints) (h : CurveInvariant a) :
    redo a ≠ Outcome.fault Fault.nullSpline ∧
    ∀ r : LC_ActionDrawSplinePoints × List Effect,
      redo a = Outcome.returns r → CurveInvariant r.1 := by
  obtain ⟨h1, h2, h3, h4⟩ := h
  constructor
  · by_cases hn : a.undoBuffer.length ≤ 1
    · rw [redo_of_short a hn]
      exact fun h => Outcome.noConfusion h
    · cases hsp : a.spline with
      | none =>
        have := h4 hsp
        simp [this] at hn
      | some sp =>
        obtain ⟨b, u, hb, hne⟩ := exists_concat_of_length_gt_one a.undoBuffer (by omega)
        cases hw : back a.data.splinePoints with
        | none =>
          have hd : a.data.splinePoints = [] := by
            simpa [back] using hw
          rw [redo_of_long_empty a sp hsp (by omega) hd]
          intro h
          cases h
        | some w =>
          rw [redo_of_long a sp b u w hsp hb hne hw]
          exact fun h => Outcome.noConfusion h
  · intro r hr
    rcases redo_returns_cases a r hr with ⟨_, rfl⟩ | ⟨sp, b, u, w, hsp, _, _, _, rfl⟩
    · exact ⟨h1, h2, h3, h4⟩
    · refine ⟨le_refl _, ?_, ?_, ?_⟩
      · intro _; simp
      · intro sp1 hsp1
        simp at hsp1
        rw [← hsp1]
        simp [LC_SplinePoints.addPoint]
      · intro hnone
        simp at hnone

theorem curveInvariant_commandEvent (env : Commands) (a : LC_ActionDrawSplinePoints)
    (cmd : String) (h : CurveInvariant a) :
    commandEvent env a cmd ≠ Outcome.fault Fault.nullSpline ∧
    ∀ r : LC_ActionDrawSplinePoints × List Effect,
      commandEvent env a cmd = Outcome.returns r → CurveInvariant r.1 := by
  constructor
  · rcases commandEvent_cases env a cmd with ⟨fx, h1⟩ | ⟨_, _, h1⟩ | ⟨_, _, _, h1⟩
    · rw [h1]; exact fun h => Outcome.noConfusion h
    · rw [h1]; exact fun h => Outcome.noConfusion h
    · rw [h1]
      intro hf
      exact (curveInvariant_redo a h).1 (map_eq_fault _ _ _ hf)
  · intro r hr
    rcases commandEvent_returns_cases env a cmd r hr with h1 | h1 | ⟨r1, hr1, h1⟩
    · rw [h1]; exact h
    · rw [h1]; exact curveInvariant_undo a h
    · rw [h1]; exact (curveInvariant_redo a h).2 r1 hr1

theorem trigger_status (a : LC_ActionDrawSplinePoints) :
    (trigger a).1.status = a.status := by
  cases hsp : a.spline <;> simp [trigger, hsp, reset]

theorem curveInvariant_mouseReleaseEvent (env : Commands) (a : LC_ActionDrawSplinePoints)
    (e : QMouseEvent) (h : CurveInvariant a) :
    CurveInvariant (mouseReleaseEvent env a e).1 := by
  cases hb : e.button with
  | LeftButton =>
    simp only [mouseReleaseEvent, hb]
    exact curveInvariant_coordinateEvent env a _ h
  | RightButton =>
    simp only [mouseReleaseEvent, hb]
    apply curveInvariant_init
    have h1 := h.1
    have h2 := trigger_status a
    simp only [getStatus]
    split
    · rw [h2]; omega
    · simp only; omega
  | OtherButton =>
    simp only [mouseReleaseEvent, hb]
    exact h

theorem curveInvariant_step (env : Commands) (a : LC_ActionDrawSplinePoints)
    (ev : Event) (h : CurveInvariant a) :
    step env a ev ≠ Outcome.fault Fault.nullSpline ∧
    ∀ r : LC_ActionDrawSplinePoints × List Effect,
      step env a ev = Outcome.returns r → CurveInvariant r.1 := by
  cases ev with
  | coordinate e =>
    refine ⟨fun h => Outcome.noConfusion h, ?_⟩
    intro r hr
    cases hr
    exact curveInvariant_coordinateEvent env a e h
  | command cmd => exact curveInvariant_commandEvent env a cmd h
  | undo =>
    refine ⟨fun h => Outcome.noConfusion h, ?_⟩
    intro r hr
    cases hr
    exact curveInvariant_undo a h
  | redo => exact curveInvariant_redo a h
  | mouseRelease e =>
    refine ⟨fun h => Outcome.noConfusion h, ?_⟩
    intro r hr
    cases hr
    exact curveInvariant_mouseReleaseEvent env a e h

theorem curveInvariant_of_reachable (env : Commands) (a : LC_ActionDrawSplinePoints)
    (h : ReachableFrom (step env) IsInit a) : CurveInvariant a := by
  induction h with
  | start h0 =>
    obtain ⟨a0, rfl⟩ := h0
    exact curveInvariant_init a0 SetStartPoint (by decide)
  | step _ hs ih => exact (curveInvariant_step env _ _ ih).2 _ hs

/-! ### The action's own data -/

theorem back_of_ne_nil (l : List RS_Vector) (h : l ≠ []) : ∃ v : RS_Vector, back l = some v :=
  ⟨l.getLast h, List.getLast?_eq_getLast l h⟩

theorem coordinateEvent_data (env : Commands) (a : LC_ActionDrawSplinePoints)
    (e : Option RS_Vector) : (coordinateEvent env a e).1.data = a.data := by
  cases e with
  | none => rfl
  | some mouse =>
    simp only [coordinateEvent, getStatus]
    by_cases hs : a.status = SetStartPoint
    · rw [if_pos hs]
      cases hsp : a.spline <;> simp [setStatus]
    · rw [if_neg hs]
      by_cases hn : a.status = SetNextPoint
      · rw [if_pos hn]
        cases hsp : a.spline <;> simp
      · rw [if_neg hn]

theorem trigger_data (a : LC_ActionDrawSplinePoints) : (trigger a).1.data = a.data := by
  cases hsp : a.spline <;> simp [trigger, hsp, reset]

theorem mouseReleaseEvent_data (env : Commands) (a : LC_ActionDrawSplinePoints)
    (e : QMouseEvent) : (mouseReleaseEvent env a e).1.data = a.data := by
  cases hb : e.button with
  | LeftButton =>
    simp only [mouseReleaseEvent, hb]
    exact coordinateEvent_data env a _
  | RightButton =>
    simp only [mouseReleaseEvent, hb, init, reset, setStatus]
    split
    · exact trigger_data a
    · rfl
  | OtherButton =>
    simp only [mouseReleaseEvent, hb]

/-- No operation changes the point sequence of the action's own data. -/
theorem operate_splinePoints (env : Commands) (a : LC_ActionDrawSplinePoints)
    (op : Operation) (r : LC_ActionDrawSplinePoints × List Effect)
    (h : operate env a op = Outcome.returns r) :
    r.1.data.splinePoints = a.data.splinePoints := by
  cases op with
  | reset => cases h; rfl
  | init status => cases h; rfl
  | trigger => cases h; rw [trigger_data]
  | mouseMove mouse => rw [mouseMoveEvent_state a mouse r h]
  | mouseRelease e => cases h; rw [mouseReleaseEvent_data]
  | coordinate e => cases h; rw [coordinateEvent_data]
  | command cmd => rw [commandEvent_data env a cmd r h]
  | undo => cases h; rw [undo_data]
  | redo => rw [redo_data a r h]
  | setClosed c => cases h; rfl

theorem undo_spline_none (a : LC_ActionDrawSplinePoints)
    (h : (undo a).1.spline = none) : a.spline = none := by
  cases hsp : a.spline with
  | none => rfl
  | some sp =>
    by_cases hn : sp.data.splinePoints.length < 2
    · rw [undo_of_few a sp hsp hn, hsp] at h
      cases h
    · obtain ⟨q, v, hp, hq⟩ :=
        exists_concat_of_length_gt_one sp.data.splinePoints (by omega)
      rw [undo_of_many a sp q v hsp hp hq] at h
      cases h

theorem undo_undoBuffer_of_null (a : LC_ActionDrawSplinePoints) (h : a.spline = none) :
    (undo a).1.undoBuffer = a.undoBuffer := by
  rw [undo_of_null a h]

/-- Without a spline the undo buffer is empty: kept by every operation. -/
theorem bufferGuard_operate (env : Commands) (a : LC_ActionDrawSplinePoints)
    (op : Operation) (r : LC_ActionDrawSplinePoints × List Effect)
    (hinv : a.spline = none → a.undoBuffer = [])
    (h : operate env a op = Outcome.returns r) :
    r.1.spline = none → r.1.undoBuffer = [] := by
  have hundo : (undo a).1.spline = none → (undo a).1.undoBuffer = [] := by
    intro h1
    have h2 := undo_spline_none a h1
    rw [undo_undoBuffer_of_null a h2]
    exact hinv h2
  have hredo : ∀ r1 : LC_ActionDrawSplinePoints × List Effect,
      redo a = Outcome.returns r1 → r1.1.spline = none → r1.1.undoBuffer = [] := by
    intro r1 hr1 h1
    rcases redo_returns_cases a r1 hr1 with ⟨_, rfl⟩ | ⟨sp, b, u, w, _, _, _, _, rfl⟩
    · exact hinv h1
    · cases h1
  have hcoord : ∀ e : Option RS_Vector, (coordinateEvent env a e).1.spline = none →
      (coordinateEvent env a e).1.undoBuffer = [] := by
    intro e
    cases e with
    | none => exact hinv
    | some mouse =>
      simp only [coordinateEvent, getStatus]
      by_cases hs : a.status = SetStartPoint
      · rw [if_pos hs]
        intro _
        cases hsp : a.spline <;> simp [setStatus]
      · rw [if_neg hs]
        by_cases hn : a.status = SetNextPoint
        · rw [if_pos hn]
          cases hsp : a.spline with
          | none =>
            intro _
            simpa using hinv hsp
          | some sp =>
            intro h1
            simp at h1
        · rw [if_neg hn]
          exact hinv
  cases op with
  | reset => cases h; intro _; rfl
  | init status => cases h; intro _; rfl
  | trigger =>
    cases h
    cases hsp : a.spline with
    | none =>
      simp only [trigger, hsp]
      intro _
      exact hinv hsp
    | some sp =>
      simp only [trigger, hsp, reset]
      intro _; trivial
  | mouseMove mouse => rw [mouseMoveEvent_state a mouse r h]; exact hinv
  | mouseRelease e =>
    cases h
    cases hb : e.button with
    | LeftButton =>
      simp only [mouseReleaseEvent, hb]
      exact hcoord _
    | RightButton =>
      simp only [mouseReleaseEvent, hb]
      intro _; rfl
    | OtherButton =>
      simp only [mouseReleaseEvent, hb]
      exact hinv
  | coordinate e => cases h; exact hcoord e
  | command cmd =>
    change commandEvent env a cmd = Outcome.returns r at h
    rcases commandEvent_returns_cases env a cmd r h with h1 | h1 | ⟨r1, hr, h1⟩
    · rw [h1]; exact hinv
    · rw [h1]; exact hundo
    · rw [h1]; exact hredo r1 hr
  | undo => cases h; exact hundo
  | redo => exact hredo r h
  | setClosed c =>
    cases h
    intro h1
    have h2 : a.spline = none := by
      cases hsp : a.spline with
      | none => rfl
      | some sp => simp [setClosed, hsp] at h1
    exact hinv h2

theorem dataInvariant_of_reachable (env : Commands) (a : LC_ActionDrawSplinePoints)
    (h : ReachableFrom (operate env) IsConstructed a) : DataInvariant a := by
  induction h with
  | start h0 =>
    obtain ⟨document, rfl⟩ := h0
    exact ⟨rfl, fun _ => rfl⟩
  | step _ hs ih =>
    refine ⟨?_, bufferGuard_operate env _ _ _ ih.2 hs⟩
    rw [operate_splinePoints env _ _ _ hs]
    exact ih.1

end LC_ActionDrawSplinePoints

/-! ## Lower-casing -/

theorem toLower_ofNat_lower (n : Nat) (h1 : 65 ≤ n) (h2 : n ≤ 90) :
    Char.toLower (Char.ofNat (n + 32)) = Char.ofNat (n + 32) := by
  interval_cases n <;> rfl

theorem char_toLower_idem (c : Char) : Char.toLower (Char.toLower c) = Char.toLower c := by
  by_cases h : c.toNat ≥ 65 ∧ c.toNat ≤ 90
  · have hc : Char.toLower c = Char.ofNat (c.toNat + 32) := by
      simp only [Char.toLower, h, and_self, if_true]
    rw [hc]
    exact toLower_ofNat_lower _ h.1 h.2
  · have hc : Char.toLower c = c := by
      simp only [Char.toLower, h, if_false]
    rw [hc, hc]

theorem toLower_eq (s : String) : toLower s = ⟨s.data.map Char.toLower⟩ := by
  rw [toLower, String.map_eq]

theorem toLower_idem (s : String) : toLower (toLower s) = toLower s := by
  rw [toLower_eq (toLower s), toLower_eq s]
  simp [List.map_map, Function.comp_def, char_toLower_idem]

namespace LC_ActionDrawSplinePoints

/-- The body of `commandEvent` only sees the lower-cased command. -/
theorem commandEvent_congr (env : Commands) (a : LC_ActionDrawSplinePoints)
    (c d : String) (h : toLower c = toLower d) :
    commandEvent env a c = commandEvent env a d := by
  simp only [commandEvent, h]

/-- With the plain dictionary the command "close" matches no branch of
`commandEvent`. -/
theorem commandEvent_close_plain (a : LC_ActionDrawSplinePoints) :
    commandEvent plainCommands a "close" = Outcome.returns (a, []) := by
  have h1 : plainCommands.checkCommand "help" "close" = false := by decide
  have h2 : plainCommands.checkCommand "undo" "close" = false := by decide
  have h3 : plainCommands.checkCommand "redo" "close" = false := by decide
  have hl : toLower "close" = "close" := by
    rw [toLower_eq]; rfl
  simp only [commandEvent, hl, h1, h2, h3]
  simp

/-- Under any dictionary, no command changes a closed flag. -/
theorem commandEvent_keeps_closedFlags (env : Commands) (a : LC_ActionDrawSplinePoints)
    (cmd : String) :
    (commandEvent env a cmd).result.map (fun r => closedFlags r.1) =
      (commandEvent env a cmd).result.map (fun _ => closedFlags a) := by
  cases h : commandEvent env a cmd with
  | fault f => rfl
  | returns r => simp [Outcome.result, commandEvent_closedFlags env a cmd r h]

end LC_ActionDrawSplinePoints

/-! ## The claims -/

namespace LC_ActionDrawSplinePoints

/-- C1: from a freshly initialised action (status `SetStartPoint`, no spline,
the action's own data without points; the undo buffer may hold anything, the
first click clears it), `N ≥ 2` coordinates `p1..pN` delivered by
`coordinateEvent` followed by `undo()` leave a spline with exactly the `N-1`
points `p1..p(N-1)` in click order, and the undo buffer equal to `[pN]`. -/
theorem clicks_then_undo (env : Commands) (a : LC_ActionDrawSplinePoints)
    (ps : List RS_Vector) (N : Nat)
    (hst : a.status = SetStartPoint) (hsp : a.spline = none)
    (hdata : a.data.splinePoints = [])
    (hlen : ps.length = N) (hN : 2 ≤ N) :
    ∃ sp : LC_SplinePoints,
      (undo (clicks env a ps)).1.spline = some sp ∧
      sp.data.splinePoints = ps.take (N - 1) ∧
      sp.data.splinePoints.length = N - 1 ∧
      (undo (clicks env a ps)).1.undoBuffer = ps.drop (N - 1) := by
  subst hlen
  have hne : ps ≠ [] := by
    intro h; simp [h] at hN
  obtain ⟨q, v, rfl⟩ : ∃ q v, ps = q ++ [v] :=
    ⟨ps.dropLast, ps.getLast hne, (List.dropLast_append_getLast hne).symm⟩
  have hq : q ≠ [] := by
    intro h; simp [h] at hN
  obtain ⟨p, rest, rfl⟩ := List.exists_cons_of_ne_nil hq
  have hcons : (p :: rest) ++ [v] = p :: (rest ++ [v]) := rfl
  rw [hcons, clicks_fresh env a p (rest ++ [v]) hst hsp, hdata]
  rw [undo_of_many _ ⟨{ a.data with splinePoints := [] ++ p :: (rest ++ [v]) }⟩
        (p :: rest) v rfl (by simp) hq]
  refine ⟨_, rfl, ?_, ?_, ?_⟩
  · simp
  · simp
  · simp

/-- Witness for C1: three clicks then one undo on the constructed and
initialised action. -/
theorem clicks_then_undo_witness :
    ∃ sp : LC_SplinePoints,
      (undo (clicks plainCommands ((construct true).init SetStartPoint)
        [pt 1, pt 2, pt 3])).1.spline = some sp ∧
      sp.data.splinePoints = [pt 1, pt 2, pt 3].take (3 - 1) ∧
      sp.data.splinePoints.length = 3 - 1 ∧
      (undo (clicks plainCommands ((construct true).init SetStartPoint)
        [pt 1, pt 2, pt 3])).1.undoBuffer = [pt 1, pt 2, pt 3].drop (3 - 1) :=
  clicks_then_undo plainCommands ((construct true).init SetStartPoint)
    [pt 1, pt 2, pt 3] 3 rfl rfl rfl rfl (by decide)

/-- C2, evaluated on the code: with an empty undo buffer, `undo()` moves the
last point `q` into the buffer and the following `redo()` is refused with the
message "Cannot undo: Nothing could be redone.", because a buffer of length 1
fails the test `iBufLen > 1`; the point sequence stays at `p :: qs` and the
undo buffer at `[q]` instead of being restored. -/
theorem undo_redo_single_refused (p q : RS_Vector) (qs : List RS_Vector) :
    redo (undo (inProgress (p :: qs ++ [q]) [])).1 =
      Outcome.returns (inProgress (p :: qs) [q],
        [Effect.commandMessage "Cannot undo: Nothing could be redone."]) := by
  rw [undo_of_many (inProgress (p :: qs ++ [q]) []) ⟨⟨false, false, p :: qs ++ [q]⟩⟩
        (p :: qs) q rfl rfl (by simp)]
  rw [redo_of_short _ (by simp [inProgress])]
  simp [inProgress]

/-- C3: an undo or redo in an invalid state is refused atomically.  `undo()`
with no spline, `undo()` with fewer than 2 points and `redo()` with an empty
undo buffer each make exactly one collaborator call, a `commandMessage` whose
text begins with "Cannot undo: ", and return the action unchanged (so the
point sequence, the undo buffer and the status are unchanged). -/
theorem refused_atomically (a : LC_ActionDrawSplinePoints) :
    (a.spline = none →
      ∃ msg rest : String, msg = "Cannot undo: " ++ rest ∧
        undo a = (a, [Effect.commandMessage msg])) ∧
    (∀ sp : LC_SplinePoints, a.spline = some sp → sp.data.splinePoints.length < 2 →
      ∃ msg rest : String, msg = "Cannot undo: " ++ rest ∧
        undo a = (a, [Effect.commandMessage msg])) ∧
    (a.undoBuffer = [] →
      ∃ msg rest : String, msg = "Cannot undo: " ++ rest ∧
        redo a = Outcome.returns (a, [Effect.commandMessage msg])) := by
  refine ⟨fun h => ⟨_, "Not enough entities defined yet.", ?_, undo_of_null a h⟩,
    fun sp h hn => ⟨_, "Not enough entities defined yet.", ?_, undo_of_few a sp h hn⟩,
    fun h => ⟨_, "Nothing could be redone.", ?_, redo_of_short a (by simp [h])⟩⟩
  · decide
  · decide
  · decide

/-- Witness for C3: an initialised action without a spline, a spline with a
single point, and a curve in progress with an empty undo buffer. -/
theorem refused_atomically_witness :
    (∃ msg rest : String, msg = "Cannot undo: " ++ rest ∧
      undo ((construct true).init SetStartPoint) =
        ((construct true).init SetStartPoint, [Effect.commandMessage msg])) ∧
    (∃ msg rest : String, msg = "Cannot undo: " ++ rest ∧
      undo (inProgress [pt 1] [pt 2]) =
        (inProgress [pt 1] [pt 2], [Effect.commandMessage msg])) ∧
    (∃ msg rest : String, msg = "Cannot undo: " ++ rest ∧
      redo (inProgress [pt 1, pt 2] []) =
        Outcome.returns (inProgress [pt 1, pt 2] [], [Effect.commandMessage msg])) :=
  ⟨(refused_atomically ((construct true).init SetStartPoint)).1 rfl,
   (refused_atomically (inProgress [pt 1] [pt 2])).2.1 ⟨⟨false, false, [pt 1]⟩⟩ rfl
     (by decide),
   (refused_atomically (inProgress [pt 1, pt 2] [])).2.2 rfl⟩

/-- The undo half of the complementary stacks: in every state with a spline,
`undo()` keeps a spline and preserves `points ++ reverse undoBuffer`, and when
it is not refused it moves the last point to the top (the back) of the undo
buffer. -/
theorem undo_complementary (a : LC_ActionDrawSplinePoints) (sp : LC_SplinePoints)
    (h : a.spline = some sp) :
    (∃ sp1 : LC_SplinePoints, (undo a).1.spline = some sp1 ∧
      sp1.data.splinePoints ++ (undo a).1.undoBuffer.reverse =
        sp.data.splinePoints ++ a.undoBuffer.reverse) ∧
    (∀ (qs : List RS_Vector) (v : RS_Vector),
      sp.data.splinePoints = qs ++ [v] → qs ≠ [] →
      (undo a).1.spline = some ⟨{ sp.data with splinePoints := qs }⟩ ∧
      (undo a).1.undoBuffer = a.undoBuffer ++ [v]) := by
  refine ⟨?_, ?_⟩
  · by_cases hn : sp.data.splinePoints.length < 2
    · rw [undo_of_few a sp h hn]
      exact ⟨sp, h, rfl⟩
    · obtain ⟨q, v, hp, hq⟩ :=
        exists_concat_of_length_gt_one sp.data.splinePoints (by omega)
      rw [undo_of_many a sp q v h hp hq]
      exact ⟨_, rfl, by simp [hp]⟩
  · intro qs v hp hq
    rw [undo_of_many a sp qs v h hp hq]
    exact ⟨rfl, rfl⟩

/-- C4, evaluated on the code: a `redo()` that is not refused does not move
the top of the undo buffer to the spline's points and return.  After three
clicks and two undos on the constructed and initialised action (one point on
the spline, two buffered), `redo()` passes the length test and stops at the
`back()` read of the action's own empty data; so it does for every curve in
progress with two or more buffered points. -/
theorem redo_stops_at_back :
    redo (undo (undo (clicks plainCommands ((construct true).init SetStartPoint)
      [pt 1, pt 2, pt 3])).1).1 = Outcome.fault Fault.emptyBack ∧
    (∀ (ps b : List RS_Vector) (u v : RS_Vector),
      redo (inProgress ps (u :: v :: b)) = Outcome.fault Fault.emptyBack) := by
  constructor
  · decide
  · intro ps b u v
    exact redo_of_long_empty _ ⟨⟨false, false, ps⟩⟩ rfl
      (by simp only [inProgress, List.length_cons]; omega) rfl

/-- C5: commands are interpreted case-insensitively.  For every dictionary
(`checkCommand` an arbitrary fixed predicate), every action state (hence every
status) and every command string `c`, `commandEvent` on `c` returns the same
state and the same collaborator calls as on the lower-cased `c`; in particular
"UNDO", "Undo" and "undo" are indistinguishable. -/
theorem commandEvent_case_insensitive (env : Commands) (a : LC_ActionDrawSplinePoints) :
    (∀ c : String, commandEvent env a c = commandEvent env a (toLower c)) ∧
    commandEvent env a "UNDO" = commandEvent env a "undo" ∧
    commandEvent env a "Undo" = commandEvent env a "undo" := by
  refine ⟨fun c => commandEvent_congr env a c (toLower c) (toLower_idem c).symm, ?_, ?_⟩
  · apply commandEvent_congr
    rw [toLower_eq, toLower_eq]
    rfl
  · apply commandEvent_congr
    rw [toLower_eq, toLower_eq]
    rfl

/-- C6, evaluated on the code: `commandEvent` has no branch for "close".  With
the plain dictionary the command "close" on a curve of three points in status
`SetNextPoint` returns the action unchanged and makes no collaborator call, and
so it does in every other state; with any dictionary no command changes a
closed flag. -/
theorem close_not_interpreted :
    commandEvent plainCommands (inProgress [pt 1, pt 2, pt 3] []) "close" =
      Outcome.returns (inProgress [pt 1, pt 2, pt 3] [], []) ∧
    (∀ a : LC_ActionDrawSplinePoints,
      commandEvent plainCommands a "close" = Outcome.returns (a, [])) ∧
    (∀ (env : Commands) (a : LC_ActionDrawSplinePoints) (cmd : String),
      (commandEvent env a cmd).result.map (fun r => closedFlags r.1) =
        (commandEvent env a cmd).result.map (fun _ => closedFlags a)) :=
  ⟨commandEvent_close_plain _, commandEvent_close_plain, commandEvent_keeps_closedFlags⟩

/-- The other three commands are interpreted.  With the plain dictionary,
"help" in status `SetStartPoint` emits the list of available commands, "undo"
on a curve of two points removes the last one, and "redo" with an empty undo
buffer emits its refusal. -/
theorem help_undo_redo_interpreted :
    commandEvent plainCommands ((construct true).init SetStartPoint) "help" =
      Outcome.returns ((construct true).init SetStartPoint,
        [Effect.commandMessage "Available commands:"]) ∧
    commandEvent plainCommands (inProgress [pt 1, pt 2] []) "undo" =
      Outcome.returns (inProgress [pt 1] [pt 2],
        [Effect.moveRelativeZero (some (pt 1)), Effect.redraw, Effect.drawPreview,
          Effect.updateMouseWidget "Specify next control point" "Back"]) ∧
    commandEvent plainCommands (inProgress [pt 1, pt 2] []) "redo" =
      Outcome.returns (inProgress [pt 1, pt 2] [],
        [Effect.commandMessage "Cannot undo: Nothing could be redone.",
          Effect.updateMouseWidget "Specify next control point" "Back"]) := by
  refine ⟨?_, ?_, ?_⟩
  · simp only [commandEvent, toLower_eq]
    decide
  · simp only [commandEvent, toLower_eq]
    decide
  · simp only [commandEvent, toLower_eq]
    decide

/-- C7: the point sequence and the undo buffer live for one curve's
construction.  A right-button `mouseReleaseEvent` in status `SetNextPoint` with
a spline `sp` makes exactly these collaborator calls: one `addEntity` of the
clone of `sp` (same points in the same order, same closed flag), then, when a
document exists, one undo cycle registering that same entity, then the redraw;
it leaves the action with no spline, an empty undo buffer and status
`SetStartPoint`.  `trigger()` with no spline changes nothing and calls
nothing. -/
theorem right_click_commits (env : Commands) (a : LC_ActionDrawSplinePoints)
    (e : QMouseEvent) :
    (∀ sp : LC_SplinePoints, a.status = SetNextPoint → a.spline = some sp →
      e.button = MouseButton.RightButton →
      (mouseReleaseEvent env a e).1 =
        { a with status := SetStartPoint, spline := none, undoBuffer := [] } ∧
      (mouseReleaseEvent env a e).2 =
        [Effect.addEntity sp]
          ++ (if a.document then
                [Effect.startUndoCycle, Effect.addUndoable sp, Effect.endUndoCycle]
              else [])
          ++ [Effect.redraw, Effect.restoreRelativeZero] ∧
      addedEntities (mouseReleaseEvent env a e).2 = [sp] ∧
      undoables (mouseReleaseEvent env a e).2 = (if a.document then [sp] else [])) ∧
    (a.spline = none → trigger a = (a, [])) := by
  constructor
  · intro sp hst hsp hb
    have hm : mouseReleaseEvent env a e =
        ({ a with status := SetStartPoint, spline := none, undoBuffer := [] },
          [Effect.addEntity sp]
            ++ (if a.document then
                  [Effect.startUndoCycle, Effect.addUndoable sp, Effect.endUndoCycle]
                else [])
            ++ [Effect.redraw, Effect.restoreRelativeZero]) := by
      simp [mouseReleaseEvent, hb, getStatus, hst, hsp, trigger, init, reset, setStatus,
        LC_SplinePoints.clone, SetNextPoint, SetStartPoint]
    rw [hm]
    refine ⟨rfl, rfl, ?_, ?_⟩
    · cases a.document <;> simp [addedEntities]
    · cases a.document <;> simp [undoables]
  · intro hsp
    simp [trigger, hsp]

/-- Witness for C7: a right click on a closed curve of three points, and
`trigger()` on the initialised action. -/
theorem right_click_commits_witness :
    ((mouseReleaseEvent plainCommands (setClosed (inProgress [pt 1, pt 2, pt 3] [pt 4]) true)
        ⟨MouseButton.RightButton, pt 9⟩).1 =
      { setClosed (inProgress [pt 1, pt 2, pt 3] [pt 4]) true with
        status := SetStartPoint, spline := none, undoBuffer := [] } ∧
     addedEntities (mouseReleaseEvent plainCommands
        (setClosed (inProgress [pt 1, pt 2, pt 3] [pt 4]) true)
        ⟨MouseButton.RightButton, pt 9⟩).2 = [⟨⟨true, false, [pt 1, pt 2, pt 3]⟩⟩]) ∧
    trigger ((construct true).init SetStartPoint) =
      ((construct true).init SetStartPoint, []) :=
  ⟨⟨((right_click_commits plainCommands
        (setClosed (inProgress [pt 1, pt 2, pt 3] [pt 4]) true)
        ⟨MouseButton.RightButton, pt 9⟩).1 ⟨⟨true, false, [pt 1, pt 2, pt 3]⟩⟩
        rfl rfl rfl).1,
    ((right_click_commits plainCommands
        (setClosed (inProgress [pt 1, pt 2, pt 3] [pt 4]) true)
        ⟨MouseButton.RightButton, pt 9⟩).1 ⟨⟨true, false, [pt 1, pt 2, pt 3]⟩⟩
        rfl rfl rfl).2.2.1⟩,
   (right_click_commits plainCommands ((construct true).init SetStartPoint)
      ⟨MouseButton.RightButton, pt 9⟩).2 rfl⟩

/-- Placing a new point discards nothing from the redo history while a curve
is in progress: `coordinateEvent` in status `SetNextPoint` appends the
coordinate to the spline's points and leaves the undo buffer unchanged.  Among
the operations only `coordinateEvent` in status `SetStartPoint`, `reset`,
`init` and `trigger` (with a spline) empty the undo buffer: `coordinateEvent`
in any other status, `setClosed` and `mouseMoveEvent` leave it as it is, and
`undo`, `redo` and `commandEvent` never turn a non-empty buffer into an empty
one. -/
theorem new_point_keeps_undoBuffer (env : Commands) (a : LC_ActionDrawSplinePoints)
    (sp : LC_SplinePoints) (v : RS_Vector)
    (hst : a.status = SetNextPoint) (hsp : a.spline = some sp) :
    ((coordinateEvent env a (some v)).1 =
        { a with
          spline := some ⟨{ sp.data with splinePoints := sp.data.splinePoints ++ [v] }⟩ } ∧
      (coordinateEvent env a (some v)).1.undoBuffer = a.undoBuffer) ∧
    ((∀ (a1 : LC_ActionDrawSplinePoints) (p : RS_Vector), a1.status = SetStartPoint →
        (coordinateEvent env a1 (some p)).1.undoBuffer = []) ∧
      (∀ a1 : LC_ActionDrawSplinePoints, (reset a1).undoBuffer = []) ∧
      (∀ (a1 : LC_ActionDrawSplinePoints) (status : Int),
        (init a1 status).undoBuffer = []) ∧
      (∀ (a1 : LC_ActionDrawSplinePoints) (s1 : LC_SplinePoints), a1.spline = some s1 →
        (trigger a1).1.undoBuffer = [])) ∧
    ((∀ (a1 : LC_ActionDrawSplinePoints) (e : Option RS_Vector),
        a1.status ≠ SetStartPoint →
        (coordinateEvent env a1 e).1.undoBuffer = a1.undoBuffer) ∧
      (∀ (a1 : LC_ActionDrawSplinePoints) (c : Bool),
        (setClosed a1 c).undoBuffer = a1.undoBuffer) ∧
      (∀ (a1 : LC_ActionDrawSplinePoints) (mouse : RS_Vector)
        (r : LC_ActionDrawSplinePoints × List Effect),
        mouseMoveEvent a1 mouse = Outcome.returns r → r.1.undoBuffer = a1.undoBuffer) ∧
      (∀ a1 : LC_ActionDrawSplinePoints, a1.undoBuffer ≠ [] →
        (undo a1).1.undoBuffer ≠ []) ∧
      (∀ (a1 : LC_ActionDrawSplinePoints) (r : LC_ActionDrawSplinePoints × List Effect),
        a1.undoBuffer ≠ [] → redo a1 = Outcome.returns r → r.1.undoBuffer ≠ []) ∧
      (∀ (a1 : LC_ActionDrawSplinePoints) (cmd : String)
        (r : LC_ActionDrawSplinePoints × List Effect),
        a1.undoBuffer ≠ [] → commandEvent env a1 cmd = Outcome.returns r →
        r.1.undoBuffer ≠ [])) := by
  have hce : (coordinateEvent env a (some v)).1 =
      { a with
        spline := some ⟨{ sp.data with splinePoints := sp.data.splinePoints ++ [v] }⟩ } := by
    rw [coordinateEvent_next env a sp v hst hsp]
    rfl
  refine ⟨⟨hce, by rw [hce]⟩, ⟨?_, ?_, ?_, ?_⟩, ⟨?_, ?_, ?_, ?_, ?_, ?_⟩⟩
  · intro a1 p h1
    cases h2 : a1.spline <;>
      simp [coordinateEvent, getStatus, h1, h2, setStatus]
  · intro a1; rfl
  · intro a1 status; rfl
  · intro a1 s1 h1
    simp [trigger, h1, reset]
  · intro a1 e h1
    exact coordinateEvent_undoBuffer env a1 e h1
  · intro a1 c; rfl
  · intro a1 mouse r h1
    rw [mouseMoveEvent_state a1 mouse r h1]
  · intro a1 h1
    exact undo_undoBuffer_ne_nil a1 h1
  · intro a1 r h1 h2
    exact redo_undoBuffer_ne_nil a1 r h1 h2
  · intro a1 cmd r h1 h2
    exact commandEvent_undoBuffer_ne_nil env a1 cmd r h1 h2

/-- C10, evaluated on the code: points 1, 2, 3 placed, then 3 and 2 undone,
then a new point 7 placed.  The click appends 7 and keeps both buffered points,
but the following `redo()` does not append the undone point 2 after 7: it
passes the length test and stops at the `back()` read of the action's own
empty data. -/
theorem redo_after_new_point_stops :
    (coordinateEvent plainCommands
      (undo (undo (clicks plainCommands ((construct true).init SetStartPoint)
        [pt 1, pt 2, pt 3])).1).1 (some (pt 7))).1 =
      inProgress [pt 1, pt 7] [pt 3, pt 2] ∧
    redo (inProgress [pt 1, pt 7] [pt 3, pt 2]) = Outcome.fault Fault.emptyBack := by
  constructor
  · decide
  · decide

/-- C8: in every state reachable from `init(SetStartPoint)` by
`coordinateEvent`, `commandEvent`, `undo`, `redo` and `mouseReleaseEvent`
steps, status `SetNextPoint` implies that a spline exists and holds at least
one point.  Hence the unguarded dereferences never meet a null spline:
`mouseMoveEvent` returns, and neither `redo` nor any further step stops at a
null spline.  An `undo()` that removes a point takes the branch that moves the
relative zero to the new last point and keeps the status: the branch setting
the status back to `SetStartPoint` is not taken. -/
theorem setNextPoint_has_spline (env : Commands) (a : LC_ActionDrawSplinePoints)
    (h : ReachableFrom (step env) IsInit a) :
    (a.status = SetNextPoint →
      ∃ sp : LC_SplinePoints, a.spline = some sp ∧ 1 ≤ sp.data.splinePoints.length) ∧
    (∀ mouse : RS_Vector,
      ∃ r : LC_ActionDrawSplinePoints × List Effect,
        mouseMoveEvent a mouse = Outcome.returns r) ∧
    redo a ≠ Outcome.fault Fault.nullSpline ∧
    (∀ ev : Event, step env a ev ≠ Outcome.fault Fault.nullSpline) ∧
    (∀ sp : LC_SplinePoints, a.spline = some sp → 1 < sp.data.splinePoints.length →
      (undo a).1.status = a.status ∧
      ∃ v : RS_Vector,
        (undo a).2 =
          [Effect.moveRelativeZero (some v), Effect.redraw, Effect.drawPreview]) := by
  have hinv := curveInvariant_of_reachable env a h
  have hsome : a.status = SetNextPoint →
      ∃ sp : LC_SplinePoints, a.spline = some sp ∧ 1 ≤ sp.data.splinePoints.length := by
    intro hst
    cases hsp : a.spline with
    | none => exact absurd hsp (hinv.2.1 hst)
    | some sp => exact ⟨sp, rfl, List.length_pos.mpr (hinv.2.2.1 sp hsp)⟩
  refine ⟨hsome, ?_, (curveInvariant_redo a hinv).1,
    fun ev => (curveInvariant_step env a ev hinv).1, ?_⟩
  · intro mouse
    by_cases hst : a.status = SetNextPoint
    · obtain ⟨sp, hsp, _⟩ := hsome hst
      simp only [mouseMoveEvent, getStatus, if_pos hst, hsp]
      exact ⟨_, rfl⟩
    · simp only [mouseMoveEvent, getStatus, if_neg hst]
      exact ⟨_, rfl⟩
  · intro sp hsp hlen
    obtain ⟨q, v, hp, hq⟩ := exists_concat_of_length_gt_one sp.data.splinePoints hlen
    rw [undo_of_many a sp q v hsp hp hq]
    obtain ⟨w, hw⟩ := back_of_ne_nil q hq
    exact ⟨rfl, w, by rw [hw]⟩

/-- Witness for C8: the state after `init(SetStartPoint)` and one click. -/
theorem setNextPoint_has_spline_witness :
    ∃ sp : LC_SplinePoints,
      (coordinateEvent plainCommands ((construct true).init SetStartPoint)
        (some (pt 1))).1.spline = some sp ∧
      1 ≤ sp.data.splinePoints.length :=
  (setNextPoint_has_spline plainCommands
    (coordinateEvent plainCommands ((construct true).init SetStartPoint) (some (pt 1))).1
    (ReachableFrom.step (e := Event.coordinate (some (pt 1)))
      (ReachableFrom.start ⟨construct true, rfl⟩) rfl)).1 rfl

/-- C9: with the spline entity holding its own copy of the data it is
constructed from, no operation of the action changes the point sequence of the
action's own `data`, so it is empty in every state reachable from the
constructor.  Consequently `getAvailableCommands` lists at most "redo" (never
"undo" or "close"), and a `redo()` that is not refused reaches the `back()`
read of `data->splinePoints` with a non-null spline and finds the sequence
empty. -/
theorem own_data_stays_empty (env : Commands) (a : LC_ActionDrawSplinePoints)
    (h : ReachableFrom (operate env) IsConstructed a) :
    (∀ (a1 : LC_ActionDrawSplinePoints) (op : Operation)
      (r : LC_ActionDrawSplinePoints × List Effect),
      operate env a1 op = Outcome.returns r →
      r.1.data.splinePoints = a1.data.splinePoints) ∧
    a.data.splinePoints = [] ∧
    getAvailableCommands env a =
      (if a.status = SetNextPoint ∧ a.undoBuffer ≠ [] then [env.command "redo"] else []) ∧
    (1 < a.undoBuffer.length →
      redo a = Outcome.fault Fault.emptyBack ∧ back a.data.splinePoints = none) := by
  obtain ⟨hdata, hguard⟩ := dataInvariant_of_reachable env a h
  refine ⟨operate_splinePoints env, hdata, ?_, ?_⟩
  · simp only [getAvailableCommands, getStatus, hdata]
    by_cases h0 : a.status = SetStartPoint
    · have h1 : ¬ a.status = SetNextPoint := by
        rw [h0]; exact fun h => status_ne h.symm
      rw [if_pos h0, if_neg (fun h => h1 h.1)]
    · by_cases h1 : a.status = SetNextPoint
      · by_cases hb : a.undoBuffer = []
        · simp [h1, status_ne, hb]
        · have : 0 < a.undoBuffer.length := List.length_pos.mpr hb
          simp [h1, status_ne, hb, this]
      · simp [h0, h1]
  · intro hlen
    cases hsp : a.spline with
    | none =>
      have := hguard hsp
      simp [this] at hlen
    | some sp =>
      exact ⟨redo_of_long_empty a sp hsp hlen hdata, by rw [hdata]; rfl⟩

/-- Witness for C9: the constructed action after `init`, three clicks and two
undos; the spline holds one point, two are buffered. -/
theorem own_data_stays_empty_witness :
    (undo (undo (clicks plainCommands ((construct true).init SetStartPoint)
      [pt 1, pt 2, pt 3])).1).1.data.splinePoints = [] :=
  (own_data_stays_empty plainCommands
    (undo (undo (clicks plainCommands ((construct true).init SetStartPoint)
      [pt 1, pt 2, pt 3])).1).1
    (ReachableFrom.step (e := Operation.undo)
      (ReachableFrom.step (e := Operation.undo)
        (ReachableFrom.step (e := Operation.coordinate (some (pt 3)))
          (ReachableFrom.step (e := Operation.coordinate (some (pt 2)))
            (ReachableFrom.step (e := Operation.coordinate (some (pt 1)))
              (ReachableFrom.step (e := Operation.init SetStartPoint)
                (ReachableFrom.start ⟨true, rfl⟩) rfl) rfl) rfl) rfl) rfl) rfl)).2.1

end LC_ActionDrawSplinePoints

end LibreCAD
